import Mathlib

/-!
Verification of the format-selection and quality-normalization core of the
khiromix-api service (`src/main.py`), together with a model of the
`/extract` request handler's control flow.

The pure selection logic (`_quality_from_resolution`, `_is_m3u8_format`,
`_has_av_in_one`, `_sort_key`, `_select_items`, `_is_direct_media`) is
embedded as executable Lean functions; Python dicts become association
lists that append on first insertion (Python dicts preserve insertion
order), Python's stable `list.sort` becomes a stable insertion sort by the
same key, and the regex search in `_sort_key` becomes an explicit
leftmost-match scanner.  String primitives (`lower`, `strip`, `split`,
`in`, `endswith`, `startswith`, `int()`) are embedded as executable
functions on character lists so every definition evaluates by kernel
reduction.  The handler `extract` is embedded as a pure function of the
request payload, the extraction collaborator's outcome (its returned
format list or a raised exception message) and whether the final
credential-file unlink fails; file-system effects are recorded as an
event trace.
-/

/-! ### String helpers (Python semantics, over `List Char`) -/

/-- ASCII lowercasing of one character (`str.lower` — all strings the code
lowercases are ASCII protocol/extension/URL data). -/
def asciiLower (c : Char) : Char :=
  if 65 ≤ c.toNat ∧ c.toNat ≤ 90 then Char.ofNat (c.toNat + 32) else c

/-- `str.lower`. -/
def lowerStr (s : String) : String := ⟨s.data.map asciiLower⟩

/-- The whitespace `str.strip()` removes (ASCII portion). -/
def isPySpace (c : Char) : Bool :=
  c == ' ' || c == '\t' || c == '\n' || c == '\r' || c == '\x0b' || c == '\x0c'

/-- `str.strip()` on a character list. -/
def trimChars (cs : List Char) : List Char :=
  ((cs.dropWhile isPySpace).reverse.dropWhile isPySpace).reverse

/-- `str.strip()`. -/
def pyStrip (s : String) : String := ⟨trimChars s.data⟩

/-- Character-list prefix test. -/
def charsPrefix : List Char → List Char → Bool
  | [], _ => true
  | _ :: _, [] => false
  | a :: as, b :: bs => a == b && charsPrefix as bs

/-- Does `pat` occur as a contiguous run inside the list?  (Python `in`.) -/
def charsContains (pat : List Char) : List Char → Bool
  | [] => charsPrefix pat []
  | c :: rest => charsPrefix pat (c :: rest) || charsContains pat rest

/-- Python's substring test `pat in s`. -/
def containsStr (s pat : String) : Bool :=
  charsContains pat.data s.data

/-- Python `s.startswith(pat)`. -/
def startsWithStr (s pat : String) : Bool :=
  charsPrefix pat.data s.data

/-- Python `s.endswith(pat)` on character lists. -/
def endsWithChars (s pat : List Char) : Bool :=
  charsPrefix pat.reverse s.reverse

/-- Digit run of a Python `int()` literal: digits, with single underscores
allowed between digits (Python 3.6+). Returns the value in `Nat`. -/
def pyIntGo (acc : Nat) : List Char → Option Nat
  | [] => some acc
  | '_' :: rest =>
    match rest with
    | d :: rest' => if d.isDigit then pyIntGo (acc * 10 + (d.toNat - 48)) rest' else none
    | [] => none
  | d :: rest => if d.isDigit then pyIntGo (acc * 10 + (d.toNat - 48)) rest else none

/-- Nonempty digit run (first char must be a digit). -/
def pyIntDigits : List Char → Option Nat
  | [] => none
  | c :: rest => if c.isDigit then pyIntGo (c.toNat - 48) rest else none

/-- Python `int(s)`: strip whitespace, optional sign, decimal digits
(ASCII). Returns `none` where Python raises `ValueError`. -/
def pyIntChars (cs : List Char) : Option Int :=
  match trimChars cs with
  | '+' :: rest => (pyIntDigits rest).map Int.ofNat
  | '-' :: rest => (pyIntDigits rest).map fun n => -(n : Int)
  | other => (pyIntDigits other).map Int.ofNat

/-! ### Data model -/

/-- One candidate stream record from the extraction collaborator
(the fields of the format dict that `src/main.py` reads; a missing key is
`none`).  Entries of the Python `formats` list that are not dicts are
skipped by the code before any field is read, so they are simply absent
from the embedded list. -/
structure FormatDescriptor where
  url : Option String := none
  vcodec : Option String := none
  acodec : Option String := none
  ext : Option String := none
  protocol : Option String := none
  resolution : Option String := none
  width : Option Int := none
  height : Option Int := none
deriving DecidableEq

/-- Output unit of the selection engine (`PickItem` dataclass). -/
structure PickItem where
  quality : String
  url : String
deriving DecidableEq

/-- `_is_direct_media` from src/main.py:19-21: lowercase the URL, drop
everything from the first `?` on, test the media-file suffixes. -/
def _is_direct_media (url : String) : Bool :=
  let u := (url.data.map asciiLower).takeWhile (fun c => c != '?')
  endsWithChars u ".mp4".data || endsWithChars u ".m3u8".data
    || endsWithChars u ".mpd".data

/-! ### `_sort_key` (src/main.py:24-28)

`re.search(r"(\d{3,4})p", q)` : the leftmost position where three or four
digits are immediately followed by `p`, preferring the four-digit match at
that position (greedy `{3,4}`).  `\d` is modelled as the ASCII digits —
every quality label the code builds is ASCII. -/

/-- Numeric value of a digit run. -/
def digitsVal (cs : List Char) : Nat :=
  cs.foldl (fun n c => n * 10 + (c.toNat - 48)) 0

/-- Match `(\d{3,4})p` anchored at the head of the list (greedy). -/
def matchMagAt : List Char → Option Nat
  | c1 :: c2 :: c3 :: c4 :: c5 :: _ =>
    if c1.isDigit && c2.isDigit && c3.isDigit then
      if c4.isDigit && c5 == 'p' then some (digitsVal [c1, c2, c3, c4])
      else if c4 == 'p' then some (digitsVal [c1, c2, c3])
      else none
    else none
  | [c1, c2, c3, c4] =>
    if c1.isDigit && c2.isDigit && c3.isDigit && c4 == 'p' then
      some (digitsVal [c1, c2, c3])
    else none
  | _ => none

/-- Leftmost match of `(\d{3,4})p` (the `re.search` semantics). -/
def searchMag : List Char → Option Nat
  | [] => none
  | c :: rest =>
    match matchMagAt (c :: rest) with
    | some n => some n
    | none => searchMag rest

/-- `_sort_key`: `(0, -magnitude)` when the label embeds a 3-4 digit
number followed by `p`, `(1, 0)` otherwise. -/
def _sort_key (q : String) : Nat × Int :=
  match searchMag q.data with
  | some n => (0, -(n : Int))
  | none => (1, 0)

/-! ### Quality classifier (`_quality_from_resolution`, src/main.py:37-76) -/

/-- The `"WxH"` parse at the top of `_quality_from_resolution`: if the raw
resolution string contains an `x`, lowercase it, split at the first `x`
and `int()` both halves; any parse failure discards both values. -/
def parseResPair (res : Option String) : Option Int × Option Int :=
  match res with
  | none => (none, none)
  | some s =>
    if s.data.contains 'x' then
      let lowered := s.data.map asciiLower
      let a := lowered.takeWhile (fun c => c != 'x')
      let b := (lowered.dropWhile (fun c => c != 'x')).tail
      match pyIntChars (trimChars a), pyIntChars (trimChars b) with
      | some va, some vb => (some va, some vb)
      | _, _ => (none, none)
    else (none, none)

/-- The `w` variable of `_quality_from_resolution` just before the ladder:
the parsed resolution width, overridden by an explicit positive `width`
integer (`if isinstance(width, int) and width > 0: w = width`). -/
def codeW (res : Option String) (width : Option Int) : Option Int :=
  match width with
  | some x => if 0 < x then some x else (parseResPair res).1
  | none => (parseResPair res).1

/-- The `h` variable of `_quality_from_resolution`, symmetric to `codeW`. -/
def codeH (res : Option String) (height : Option Int) : Option Int :=
  match height with
  | some x => if 0 < x then some x else (parseResPair res).2
  | none => (parseResPair res).2

/-- The width threshold ladder of `_quality_from_resolution` (top-down,
first match wins). -/
def widthLadder (wv : Int) : String :=
  if wv ≥ 1920 then "1080p" else if wv ≥ 1280 then "720p"
  else if wv ≥ 854 then "480p" else if wv ≥ 640 then "360p"
  else if wv ≥ 426 then "240p" else "144p"

/-- The height threshold ladder of `_quality_from_resolution`. -/
def heightLadder (hv : Int) : String :=
  if hv ≥ 1080 then "1080p" else if hv ≥ 720 then "720p"
  else if hv ≥ 480 then "480p" else if hv ≥ 360 then "360p"
  else if hv ≥ 240 then "240p" else "144p"

/-- `_quality_from_resolution`: explicit positive `width`/`height` integers
override the parsed resolution string; a positive width picks a tier by
the width thresholds, else a positive height by the height thresholds,
else no label. -/
def _quality_from_resolution (res : Option String) (width height : Option Int) :
    Option String :=
  let fromH : Option String :=
    match codeH res height with
    | some hv => if 0 < hv then some (heightLadder hv) else none
    | none => none
  match codeW res width with
  | some wv => if 0 < wv then some (widthLadder wv) else fromH
  | none => fromH

/-! ### Stream kind tests (src/main.py:79-95) -/

/-- `_is_m3u8_format`: extension `m3u8`, or protocol containing `m3u8`,
or URL containing `.m3u8` (all lowercased first). -/
def _is_m3u8_format (f : FormatDescriptor) : Bool :=
  if lowerStr (f.ext.getD "") == "m3u8" then true
  else if containsStr (lowerStr (f.protocol.getD "")) "m3u8" then true
  else if containsStr (lowerStr (f.url.getD "")) ".m3u8" then true
  else false

/-- Python truthiness of an optional string field: present and nonempty. -/
def truthyStr : Option String → Bool
  | none => false
  | some s => s != ""

/-- `_has_av_in_one`: both codecs truthy and not `"none"`. -/
def _has_av_in_one (f : FormatDescriptor) : Bool :=
  (truthyStr f.vcodec && (f.vcodec.getD "") != "none")
    && (truthyStr f.acodec && (f.acodec.getD "") != "none")

/-! ### Selection engine (`_select_items`, src/main.py:98-139) -/

/-- `f.get("url")` followed by `if not url: continue` — a usable URL is a
present, nonempty string. -/
def usableUrl (f : FormatDescriptor) : Option String :=
  match f.url with
  | none => none
  | some u => if u = "" then none else some u

/-- The quality the engine derives for a descriptor. -/
def qualityOf (f : FormatDescriptor) : Option String :=
  _quality_from_resolution f.resolution f.width f.height

/-- Association-list lookup (model of Python `dict` access; keys are
unique in every dict the code builds). -/
def alookup (k : String) : List (String × String) → Option String
  | [] => none
  | (k', v) :: rest => if k' = k then some v else alookup k rest

/-- `if q not in d: d[q] = url` — insert at the end only when absent
(Python dicts keep insertion order). -/
def insertIfAbsent (m : List (String × String)) (q u : String) :
    List (String × String) :=
  match alookup q m with
  | some _ => m
  | none => m ++ [(q, u)]

/-- The three per-quality dicts of `_select_items`. -/
structure SelMaps where
  best : List (String × String)
  m3u8 : List (String × String)
  fb : List (String × String)
deriving DecidableEq

def emptyMaps : SelMaps := ⟨[], [], []⟩

/-- One iteration of the `for f in formats` loop of `_select_items`. -/
def selStep (m : SelMaps) (f : FormatDescriptor) : SelMaps :=
  match usableUrl f with
  | none => m
  | some u =>
    match qualityOf f with
    | none => m
    | some q =>
      if _has_av_in_one f then { m with best := insertIfAbsent m.best q u }
      else if _is_m3u8_format f then { m with m3u8 := insertIfAbsent m.m3u8 q u }
      else { m with fb := insertIfAbsent m.fb q u }

/-- First-occurrence deduplication of the concatenated key lists (the
`set(list(..)+list(..)+list(..))` of the merge loop; the set's iteration
order is irrelevant to the final result because the subsequent sort is
total on the labels the classifier emits, so the embedding fixes
first-occurrence order). -/
def dedupAux (seen : List String) : List String → List String
  | [] => []
  | k :: rest => if k ∈ seen then dedupAux seen rest else k :: dedupAux (k :: seen) rest

/-- The merge preference of src/main.py:130-135: self-contained, else
manifest, else fallback (the final `else` branch always finds the key). -/
def resolveMaps (m : SelMaps) (q : String) : String :=
  match alookup q m.best with
  | some u => u
  | none =>
    match alookup q m.m3u8 with
    | some u => u
    | none => (alookup q m.fb).getD ""

/-- The `merged` dict of `_select_items`. -/
def mergeQualities (m : SelMaps) : List (String × String) :=
  (dedupAux [] (m.best.map Prod.fst ++ m.m3u8.map Prod.fst ++ m.fb.map Prod.fst)).map
    fun q => (q, resolveMaps m q)

/-- Comparison on `_sort_key` values (lexicographic tuple order used by
Python's sort). -/
def keyLe (a b : PickItem) : Bool :=
  let ka := _sort_key a.quality
  let kb := _sort_key b.quality
  decide (ka.1 < kb.1 ∨ (ka.1 = kb.1 ∧ ka.2 ≤ kb.2))

/-- Stable insertion: `x` goes before the first element it is `≤` to, so
elements equal under the key keep their original relative order. -/
def insertPick (x : PickItem) : List PickItem → List PickItem
  | [] => [x]
  | y :: ys => if keyLe x y then x :: y :: ys else y :: insertPick x ys

/-- Stable sort by `_sort_key` (model of Python's stable `list.sort`). -/
def sortPicks : List PickItem → List PickItem
  | [] => []
  | x :: xs => insertPick x (sortPicks xs)

/-- `_select_items`: one pass building the three dicts, per-key merge with
preference self-contained > manifest > fallback, then the stable sort. -/
def _select_items (formats : List FormatDescriptor) : List PickItem :=
  let m := formats.foldl selStep emptyMaps
  sortPicks ((mergeQualities m).map fun p => PickItem.mk p.1 p.2)

/-! ### Characterizations used by the claims

These definitions restate, over the input list itself, what the engine's
dict-building computes; the theorems below connect them to
`_select_items`. -/

/-- Keep an optional value only when it is positive (the `w > 0` / `h > 0`
guards of `_quality_from_resolution`). -/
def posFilter : Option Int → Option Int
  | none => none
  | some v => if 0 < v then some v else none

/-- The effective positive width of a descriptor: an explicit positive
`width` integer overrides the value parsed from the `"WxH"` resolution
string; a non-positive candidate yields `none`. -/
def effWidth (res : Option String) (width : Option Int) : Option Int :=
  match width with
  | some x => if 0 < x then some x else posFilter (parseResPair res).1
  | none => posFilter (parseResPair res).1

/-- The effective positive height, symmetric to `effWidth`. -/
def effHeight (res : Option String) (height : Option Int) : Option Int :=
  match height with
  | some x => if 0 < x then some x else posFilter (parseResPair res).2
  | none => posFilter (parseResPair res).2

/-- Is this descriptor a usable self-contained candidate at quality `q`? -/
def scAt (q : String) (f : FormatDescriptor) : Bool :=
  (usableUrl f).isSome && decide (qualityOf f = some q) && _has_av_in_one f

/-- Is this descriptor a usable manifest candidate at quality `q`? -/
def manAt (q : String) (f : FormatDescriptor) : Bool :=
  (usableUrl f).isSome && decide (qualityOf f = some q) && !_has_av_in_one f
    && _is_m3u8_format f

/-- Is this descriptor a usable video-only fallback candidate at quality `q`? -/
def fbAt (q : String) (f : FormatDescriptor) : Bool :=
  (usableUrl f).isSome && decide (qualityOf f = some q) && !_has_av_in_one f
    && !_is_m3u8_format f

/-- URL of the first descriptor in catalog order satisfying `p`. -/
def firstUrlWhere (p : FormatDescriptor → Bool) : List FormatDescriptor → Option String
  | [] => none
  | f :: rest => if p f then usableUrl f else firstUrlWhere p rest

/-- `firstSome a b`: `a` unless it is `none` (per-key preference). -/
def firstSome (a b : Option String) : Option String :=
  match a with
  | some v => some v
  | none => b

/-- The claim's per-key resolution: first-seen self-contained URL at `q`,
else first-seen manifest URL at `q`, else first-seen fallback URL at `q`. -/
def resolvePreferred (formats : List FormatDescriptor) (q : String) : Option String :=
  firstSome (firstUrlWhere (scAt q) formats)
    (firstSome (firstUrlWhere (manAt q) formats) (firstUrlWhere (fbAt q) formats))

/-- The six tier labels `_quality_from_resolution` can produce. -/
def tierLabels : List String := ["1080p", "720p", "480p", "360p", "240p", "144p"]

/-- The corrected manifest condition actually implemented by
`_is_m3u8_format`: extension `m3u8`, protocol containing `m3u8`, or URL
containing `.m3u8` — no `mpd` extension or `dash` protocol handling. -/
def manifestCond (f : FormatDescriptor) : Bool :=
  (lowerStr (f.ext.getD "") == "m3u8")
    || containsStr (lowerStr (f.protocol.getD "")) "m3u8"
    || containsStr (lowerStr (f.url.getD "")) ".m3u8"

/-! ### The `/extract` handler (src/main.py:163-214)

`extract` is modelled as a pure function of the JSON payload's relevant
fields, the collaborator's outcome (`yt_dlp` either returns an info dict,
embedded as its `formats` list, or raises, embedded as the exception
message), and whether the `os.unlink` in the `finally` block fails.
File-system interactions are recorded as an ordered event trace. -/

/-- The `headers` payload field as validation sees it. -/
inductive HeadersVal
  | absent
  | notDict
  | dict
deriving DecidableEq

/-- The `cookies` payload field as validation sees it. -/
inductive CookiesVal
  | absent
  | notString
  | str (s : String)
deriving DecidableEq

/-- The request payload fields `extract` reads. -/
structure Payload where
  app_name : Option String := none
  name : Option String := none
  url : Option String := none
  headers : HeadersVal := .absent
  cookies : CookiesVal := .absent
deriving DecidableEq

/-- Observable side effects of one handler run, in order: writing the
temporary cookie file, calling the extraction collaborator (recording
whether a cookie-file path is passed), attempting the `finally` unlink. -/
inductive Ev
  | mkCookieFile
  | collab (withCookieFile : Bool)
  | unlink
deriving DecidableEq

/-- One element of the JSON success array (quality, url, caller name). -/
structure OutItem where
  quality : String
  url : String
  name : String
deriving DecidableEq

/-- Response envelope: HTTP 200 with the items array, or an error status
with `{ok: false, error: msg}` (the `_err` helper). -/
inductive Response
  | ok (items : List OutItem)
  | err (code : Nat) (msg : String)
deriving DecidableEq

/-- Result of a handler run: the response, the event trace, and whether
the temporary cookie file still exists afterwards. -/
structure HandlerRun where
  response : Response
  events : List Ev
  cookieFileRemains : Bool
deriving DecidableEq

def headersBad : HeadersVal → Bool
  | .notDict => true
  | _ => false

def cookiesBad : CookiesVal → Bool
  | .notString => true
  | _ => false

/-- The cookies string when one was supplied. -/
def cookiesStr : CookiesVal → Option String
  | .str s => some s
  | _ => none

/-- The validation prefix of `extract` (src/main.py:165-182): first failing
check wins; `none` means validation passed. -/
def validationError (p : Payload) : Option Response :=
  let an := pyStrip (p.app_name.getD "")
  let nm := pyStrip (p.name.getD "")
  let url := pyStrip (p.url.getD "")
  if an = "" then some (.err 400 "app_name is required")
  else if nm = "" then some (.err 400 "name is required")
  else if url = "" ∨ (startsWithStr url "http://" = false
      ∧ startsWithStr url "https://" = false) then
    some (.err 400 "url is required and must start with http/https")
  else if headersBad p.headers then some (.err 400 "headers must be an object")
  else if cookiesBad p.cookies then some (.err 400 "cookies must be a string")
  else none

/-- The post-validation body of `extract` (src/main.py:184-214): cookie
file creation for `.facebook.com` URLs with non-blank cookies, the
collaborator call inside `try`, selection, the direct-media fallback, the
response mapping, and the `finally` unlink. -/
def extractMain (p : Payload) (outcome : Except String (List FormatDescriptor))
    (unlinkFails : Bool) : HandlerRun :=
  let nm := pyStrip (p.name.getD "")
  let url := pyStrip (p.url.getD "")
  let is_facebook := containsStr (lowerStr url) ".facebook.com"
  let hasCookieData :=
    match cookiesStr p.cookies with
    | some c => (c != "") && (pyStrip c != "")
    | none => false
  let cookiePath := is_facebook && hasCookieData
  let body : Response :=
    match outcome with
    | .error e => .err 500 e
    | .ok formats =>
      let items := _select_items formats
      let items2 :=
        if items.isEmpty && _is_direct_media url then [PickItem.mk "direct" url]
        else items
      if items2.isEmpty then .err 422 "failed to extract formats"
      else .ok (items2.map fun it => ⟨it.quality, it.url, nm⟩)
  { response := body
    events := (if cookiePath then [Ev.mkCookieFile] else [])
      ++ [Ev.collab (is_facebook && cookiePath)]
      ++ (if cookiePath then [Ev.unlink] else [])
    cookieFileRemains := cookiePath && unlinkFails }

/-- The whole `/extract` handler. -/
def extract (p : Payload) (outcome : Except String (List FormatDescriptor))
    (unlinkFails : Bool) : HandlerRun :=
  match validationError p with
  | some r => ⟨r, [], false⟩
  | none => extractMain p outcome unlinkFails

/-! ### Concrete instances used by the claims -/

/-- Self-contained 720p descriptor with URL "A" (claim C1's example). -/
def c1DescA : FormatDescriptor :=
  { url := some "A", vcodec := some "avc1", acodec := some "mp4a", height := some 720 }

/-- Audio-less 720p descriptor with URL "B" (claim C1's example). -/
def c1DescB : FormatDescriptor :=
  { url := some "B", vcodec := some "avc1", acodec := some "none", height := some 720 }

/-- DASH manifest descriptor: extension `mpd`, protocol containing `dash`. -/
def descMpd : FormatDescriptor :=
  { url := some "http://host/video", vcodec := some "avc1", ext := some "mpd",
    protocol := some "dash", height := some 720 }

/-- HLS manifest descriptor. -/
def descM3u8 : FormatDescriptor :=
  { url := some "http://h/v", vcodec := some "avc1", ext := some "m3u8",
    height := some 480 }

/-- Audio-only descriptor (`vcodec == "none"`) that still carries a height. -/
def descAudioOnly : FormatDescriptor :=
  { url := some "X", vcodec := some "none", acodec := some "mp4a", height := some 720 }

/-- Self-contained descriptors at heights 1080 / 720 / 480 (claim C5). -/
def c5Desc1080 : FormatDescriptor :=
  { url := some "u1080", vcodec := some "avc1", acodec := some "mp4a", height := some 1080 }

def c5Desc720 : FormatDescriptor :=
  { url := some "u720", vcodec := some "avc1", acodec := some "mp4a", height := some 720 }

def c5Desc480 : FormatDescriptor :=
  { url := some "u480", vcodec := some "avc1", acodec := some "mp4a", height := some 480 }

/-- A valid payload whose URL is a direct `.mp4` link. -/
def pGood : Payload :=
  { app_name := some "app", name := some "vid", url := some "http://host/clip.mp4" }

/-- A valid payload targeting `.facebook.com` with non-empty cookies. -/
def pFacebook : Payload :=
  { app_name := some "app", name := some "vid",
    url := some "https://www.facebook.com/watch", cookies := .str "cookiedata" }

/-- A valid payload targeting `.facebook.com` whose cookies string is
non-empty but consists only of whitespace. -/
def pFacebookBlankCookies : Payload :=
  { app_name := some "app", name := some "vid",
    url := some "https://www.facebook.com/watch", cookies := .str "   " }

/-- A payload whose URL has a non-http scheme. -/
def pBadUrl : Payload :=
  { app_name := some "app", name := some "vid", url := some "ftp://x" }

/-! ### Lemmas about the stable sort -/

/-- Items whose label has no embedded `<3-4 digits>p` magnitude. -/
def noMagP (p : PickItem) : Bool := (searchMag p.quality.data).isNone

lemma keyLe_total (a b : PickItem) : keyLe a b = true ∨ keyLe b a = true := by
  unfold keyLe
  simp only [decide_eq_true_eq]
  omega

lemma keyLe_trans {a b c : PickItem} (hab : keyLe a b = true) (hbc : keyLe b c = true) :
    keyLe a c = true := by
  unfold keyLe at *
  simp only [decide_eq_true_eq] at *
  omega

lemma insertPick_perm (x : PickItem) (l : List PickItem) :
    List.Perm (insertPick x l) (x :: l) := by
  induction l with
  | nil => rfl
  | cons y ys ih =>
    unfold insertPick
    by_cases h : keyLe x y = true
    · simp [h]
    · simp only [h, if_neg, Bool.not_eq_true, ite_false]
      exact (ih.cons y).trans (List.Perm.swap x y ys)

lemma sortPicks_perm (l : List PickItem) : List.Perm (sortPicks l) l := by
  induction l with
  | nil => rfl
  | cons x xs ih => exact (insertPick_perm x (sortPicks xs)).trans (ih.cons x)

lemma mem_insertPick {a x : PickItem} {l : List PickItem} :
    a ∈ insertPick x l ↔ a = x ∨ a ∈ l := by
  rw [(insertPick_perm x l).mem_iff, List.mem_cons]

lemma insertPick_pairwise {x : PickItem} {l : List PickItem}
    (h : l.Pairwise fun a b => keyLe a b = true) :
    (insertPick x l).Pairwise fun a b => keyLe a b = true := by
  induction l with
  | nil => simp [insertPick]
  | cons y ys ih =>
    unfold insertPick
    by_cases hxy : keyLe x y = true
    · simp only [hxy, if_true]
      refine List.Pairwise.cons ?_ h
      intro z hz
      rcases List.mem_cons.mp hz with rfl | hz'
      · exact hxy
      · exact keyLe_trans hxy (List.rel_of_pairwise_cons h hz')
    · simp only [hxy, ite_false]
      refine List.Pairwise.cons ?_ (ih h.tail)
      intro z hz
      rcases mem_insertPick.mp hz with rfl | hz'
      · rcases keyLe_total y z with hyz | hzy
        · exact hyz
        · exact absurd hzy hxy
      · exact List.rel_of_pairwise_cons h hz'

lemma sortPicks_pairwise (l : List PickItem) :
    (sortPicks l).Pairwise fun a b => keyLe a b = true := by
  induction l with
  | nil => exact List.Pairwise.nil
  | cons x xs ih => exact insertPick_pairwise ih

lemma keyLe_of_noMag {a b : PickItem} (ha : noMagP a = true) :
    keyLe a b = noMagP b := by
  unfold noMagP at *
  unfold keyLe _sort_key
  rw [Option.isNone_iff_eq_none] at ha
  rw [ha]
  cases hb : searchMag b.quality.data <;> simp

lemma filter_insertPick (x : PickItem) (l : List PickItem) :
    (insertPick x l).filter noMagP =
      if noMagP x then x :: l.filter noMagP else l.filter noMagP := by
  induction l with
  | nil =>
    by_cases hx : noMagP x = true <;> simp [insertPick, List.filter, hx]
  | cons y ys ih =>
    unfold insertPick
    by_cases hxy : keyLe x y = true
    · by_cases hx : noMagP x = true <;>
        simp [hxy, List.filter_cons, hx]
    · have hxy' : keyLe x y = false := by simpa using hxy
      by_cases hx : noMagP x = true
      · have hy : noMagP y = false := by
          have h1 := keyLe_of_noMag (b := y) hx
          rw [hxy'] at h1
          exact h1.symm
        simp [hxy', List.filter_cons, hy, ih, hx]
      · have hx' : noMagP x = false := by simpa using hx
        simp [hxy', List.filter_cons, ih, hx']

lemma sortPicks_filter (l : List PickItem) :
    (sortPicks l).filter noMagP = l.filter noMagP := by
  induction l with
  | nil => rfl
  | cons x xs ih =>
    show (insertPick x (sortPicks xs)).filter noMagP = _
    rw [filter_insertPick, ih]
    by_cases hx : noMagP x = true <;> simp [List.filter_cons, hx]

/-! ### Lemmas about the per-quality dicts -/

lemma firstSome_none_right (a : Option String) : firstSome a none = a := by
  cases a <;> rfl

lemma firstSome_assoc (a b c : Option String) :
    firstSome (firstSome a b) c = firstSome a (firstSome b c) := by
  cases a <;> rfl

lemma alookup_append (k : String) (l₁ l₂ : List (String × String)) :
    alookup k (l₁ ++ l₂) = firstSome (alookup k l₁) (alookup k l₂) := by
  induction l₁ with
  | nil => rfl
  | cons p rest ih =>
    obtain ⟨k', v⟩ := p
    by_cases h : k' = k <;> simp [alookup, h, ih, firstSome]

lemma alookup_insertIfAbsent (m : List (String × String)) (q u k : String) :
    alookup k (insertIfAbsent m q u) =
      firstSome (alookup k m) (if q = k then some u else none) := by
  unfold insertIfAbsent
  cases hq : alookup q m with
  | none =>
    rw [alookup_append]
    congr 1
  | some v =>
    by_cases h : q = k
    · subst h
      rw [hq]
      simp [firstSome]
    · simp [h, firstSome_none_right]

lemma mem_keys_alookup (k : String) (l : List (String × String)) :
    k ∈ l.map Prod.fst ↔ (alookup k l).isSome := by
  induction l with
  | nil => simp [alookup]
  | cons p rest ih =>
    obtain ⟨k', v⟩ := p
    by_cases h : k' = k
    · subst h
      simp [alookup]
    · have h' : ¬ k = k' := fun hh => h hh.symm
      simp [alookup, h, h', ih]

lemma mem_dedupAux (x : String) (l seen : List String) :
    x ∈ dedupAux seen l ↔ x ∈ l ∧ x ∉ seen := by
  induction l generalizing seen with
  | nil => simp [dedupAux]
  | cons k rest ih =>
    unfold dedupAux
    by_cases hk : k ∈ seen
    · rw [if_pos hk, ih]
      constructor
      · rintro ⟨hx, hs⟩
        exact ⟨List.mem_cons_of_mem _ hx, hs⟩
      · rintro ⟨hx, hs⟩
        rcases List.mem_cons.mp hx with rfl | hx'
        · exact absurd hk hs
        · exact ⟨hx', hs⟩
    · rw [if_neg hk]
      constructor
      · intro hx
        rcases List.mem_cons.mp hx with rfl | hx'
        · exact ⟨List.mem_cons_self _ _, hk⟩
        · obtain ⟨h1, h2⟩ := (ih (k :: seen)).mp hx'
          exact ⟨List.mem_cons_of_mem _ h1, fun hs => h2 (List.mem_cons_of_mem _ hs)⟩
      · rintro ⟨hx, hs⟩
        by_cases hxk : x = k
        · exact hxk ▸ List.mem_cons_self _ _
        · rcases List.mem_cons.mp hx with rfl | hx'
          · exact absurd rfl hxk
          · exact List.mem_cons_of_mem _ ((ih (k :: seen)).mpr
              ⟨hx', fun hm => (List.mem_cons.mp hm).elim hxk hs⟩)

lemma nodup_dedupAux (l seen : List String) : (dedupAux seen l).Nodup := by
  induction l generalizing seen with
  | nil => exact List.nodup_nil
  | cons k rest ih =>
    unfold dedupAux
    by_cases hk : k ∈ seen
    · rw [if_pos hk]
      exact ih seen
    · rw [if_neg hk]
      refine List.Nodup.cons ?_ (ih (k :: seen))
      intro hmem
      exact ((mem_dedupAux k rest (k :: seen)).mp hmem).2 (List.mem_cons_self _ _)

/-! ### The fold invariant: each dict holds the first-seen URL per quality -/

lemma foldl_selStep_alookup (k : String) (l : List FormatDescriptor) :
    ∀ acc : SelMaps,
      alookup k (l.foldl selStep acc).best =
        firstSome (alookup k acc.best) (firstUrlWhere (scAt k) l)
      ∧ alookup k (l.foldl selStep acc).m3u8 =
        firstSome (alookup k acc.m3u8) (firstUrlWhere (manAt k) l)
      ∧ alookup k (l.foldl selStep acc).fb =
        firstSome (alookup k acc.fb) (firstUrlWhere (fbAt k) l) := by
  induction l with
  | nil =>
    intro acc
    simp [firstUrlWhere, firstSome_none_right]
  | cons f rest ih =>
    intro acc
    rw [List.foldl_cons]
    cases hu : usableUrl f with
    | none =>
      have hstep : selStep acc f = acc := by simp [selStep, hu]
      have hsc : scAt k f = false := by simp [scAt, hu]
      have hman : manAt k f = false := by simp [manAt, hu]
      have hfb : fbAt k f = false := by simp [fbAt, hu]
      rw [hstep]
      simpa [firstUrlWhere, hsc, hman, hfb] using ih acc
    | some u =>
      cases hq : qualityOf f with
      | none =>
        have hstep : selStep acc f = acc := by simp [selStep, hu, hq]
        have hsc : scAt k f = false := by simp [scAt, hq]
        have hman : manAt k f = false := by simp [manAt, hq]
        have hfb : fbAt k f = false := by simp [fbAt, hq]
        rw [hstep]
        simpa [firstUrlWhere, hsc, hman, hfb] using ih acc
      | some q =>
        cases hav : _has_av_in_one f with
        | true =>
          have hstep : selStep acc f =
              { acc with best := insertIfAbsent acc.best q u } := by
            simp [selStep, hu, hq, hav]
          have hman : manAt k f = false := by simp [manAt, hav]
          have hfb : fbAt k f = false := by simp [fbAt, hav]
          rw [hstep]
          obtain ⟨j1, j2, j3⟩ := ih { acc with best := insertIfAbsent acc.best q u }
          by_cases hqk : q = k
          · subst hqk
            have hsc : scAt q f = true := by simp [scAt, hu, hq, hav]
            refine ⟨?_, ?_, ?_⟩
            · rw [j1]
              show firstSome (alookup q (insertIfAbsent acc.best q u)) _ = _
              rw [alookup_insertIfAbsent, if_pos rfl, firstSome_assoc]
              simp [firstUrlWhere, hsc, hu, firstSome]
            · simpa [firstUrlWhere, hman] using j2
            · simpa [firstUrlWhere, hfb] using j3
          · have hsc : scAt k f = false := by simp [scAt, hq, hqk]
            refine ⟨?_, ?_, ?_⟩
            · rw [j1]
              show firstSome (alookup k (insertIfAbsent acc.best q u)) _ = _
              rw [alookup_insertIfAbsent, if_neg hqk, firstSome_none_right]
              simp [firstUrlWhere, hsc]
            · simpa [firstUrlWhere, hman] using j2
            · simpa [firstUrlWhere, hfb] using j3
        | false =>
          cases hm3 : _is_m3u8_format f with
          | true =>
            have hstep : selStep acc f =
                { acc with m3u8 := insertIfAbsent acc.m3u8 q u } := by
              simp [selStep, hu, hq, hav, hm3]
            have hsc : scAt k f = false := by simp [scAt, hav]
            have hfb : fbAt k f = false := by simp [fbAt, hm3]
            rw [hstep]
            obtain ⟨j1, j2, j3⟩ := ih { acc with m3u8 := insertIfAbsent acc.m3u8 q u }
            by_cases hqk : q = k
            · subst hqk
              have hman : manAt q f = true := by simp [manAt, hu, hq, hav, hm3]
              refine ⟨?_, ?_, ?_⟩
              · simpa [firstUrlWhere, hsc] using j1
              · rw [j2]
                show firstSome (alookup q (insertIfAbsent acc.m3u8 q u)) _ = _
                rw [alookup_insertIfAbsent, if_pos rfl, firstSome_assoc]
                simp [firstUrlWhere, hman, hu, firstSome]
              · simpa [firstUrlWhere, hfb] using j3
            · have hman : manAt k f = false := by simp [manAt, hq, hqk]
              refine ⟨?_, ?_, ?_⟩
              · simpa [firstUrlWhere, hsc] using j1
              · rw [j2]
                show firstSome (alookup k (insertIfAbsent acc.m3u8 q u)) _ = _
                rw [alookup_insertIfAbsent, if_neg hqk, firstSome_none_right]
                simp [firstUrlWhere, hman]
              · simpa [firstUrlWhere, hfb] using j3
          | false =>
            have hstep : selStep acc f =
                { acc with fb := insertIfAbsent acc.fb q u } := by
              simp [selStep, hu, hq, hav, hm3]
            have hsc : scAt k f = false := by simp [scAt, hav]
            have hman : manAt k f = false := by simp [manAt, hm3]
            rw [hstep]
            obtain ⟨j1, j2, j3⟩ := ih { acc with fb := insertIfAbsent acc.fb q u }
            by_cases hqk : q = k
            · subst hqk
              have hfb : fbAt q f = true := by simp [fbAt, hu, hq, hav, hm3]
              refine ⟨?_, ?_, ?_⟩
              · simpa [firstUrlWhere, hsc] using j1
              · simpa [firstUrlWhere, hman] using j2
              · rw [j3]
                show firstSome (alookup q (insertIfAbsent acc.fb q u)) _ = _
                rw [alookup_insertIfAbsent, if_pos rfl, firstSome_assoc]
                simp [firstUrlWhere, hfb, hu, firstSome]
            · have hfb : fbAt k f = false := by simp [fbAt, hq, hqk]
              refine ⟨?_, ?_, ?_⟩
              · simpa [firstUrlWhere, hsc] using j1
              · simpa [firstUrlWhere, hman] using j2
              · rw [j3]
                show firstSome (alookup k (insertIfAbsent acc.fb q u)) _ = _
                rw [alookup_insertIfAbsent, if_neg hqk, firstSome_none_right]
                simp [firstUrlWhere, hfb]

/-- The three dicts built from the empty state, per key. -/
lemma select_maps_alookup (formats : List FormatDescriptor) (k : String) :
    alookup k (formats.foldl selStep emptyMaps).best = firstUrlWhere (scAt k) formats
    ∧ alookup k (formats.foldl selStep emptyMaps).m3u8 = firstUrlWhere (manAt k) formats
    ∧ alookup k (formats.foldl selStep emptyMaps).fb = firstUrlWhere (fbAt k) formats := by
  have h := foldl_selStep_alookup k formats emptyMaps
  simpa [emptyMaps, alookup, firstSome] using h

/-! ### What membership in the selection result means -/

lemma firstUrlWhere_mem {p : FormatDescriptor → Bool} {l : List FormatDescriptor}
    {u : String} (h : firstUrlWhere p l = some u) :
    ∃ f, f ∈ l ∧ p f = true ∧ usableUrl f = some u := by
  induction l with
  | nil => exact absurd h (by simp [firstUrlWhere])
  | cons f rest ih =>
    unfold firstUrlWhere at h
    by_cases hp : p f = true
    · rw [if_pos hp] at h
      exact ⟨f, List.mem_cons_self _ _, hp, h⟩
    · rw [if_neg hp] at h
      obtain ⟨g, hg, hpg, hug⟩ := ih h
      exact ⟨g, List.mem_cons_of_mem _ hg, hpg, hug⟩

lemma usableUrl_some {f : FormatDescriptor} {u : String}
    (h : usableUrl f = some u) : f.url = some u ∧ u ≠ "" := by
  unfold usableUrl at h
  cases hf : f.url with
  | none => rw [hf] at h; exact absurd h (by simp)
  | some v =>
    rw [hf] at h
    by_cases hv : v = ""
    · simp [hv] at h
    · simp only [hv, ite_false] at h
      obtain rfl : v = u := by simpa using h
      exact ⟨rfl, hv⟩

/-- Every pair of the merged dict is `(q, resolveMaps m q)` with `q` a key
of one of the three dicts. -/
lemma mem_mergeQualities {m : SelMaps} {q u : String}
    (h : (q, u) ∈ mergeQualities m) :
    u = resolveMaps m q ∧
      ((alookup q m.best).isSome ∨ (alookup q m.m3u8).isSome
        ∨ (alookup q m.fb).isSome) := by
  unfold mergeQualities at h
  obtain ⟨k, hk, hek⟩ := List.mem_map.mp h
  have hkq : k = q := congrArg Prod.fst hek
  subst hkq
  have hru : resolveMaps m k = u := congrArg Prod.snd hek
  refine ⟨hru.symm, ?_⟩
  have hmem := ((mem_dedupAux k _ []).mp hk).1
  rcases List.mem_append.mp hmem with hm | hm
  · rcases List.mem_append.mp hm with hm' | hm'
    · exact Or.inl ((mem_keys_alookup k m.best).mp hm')
    · exact Or.inr (Or.inl ((mem_keys_alookup k m.m3u8).mp hm'))
  · exact Or.inr (Or.inr ((mem_keys_alookup k m.fb).mp hm))

/-- Core correctness of `_select_items`: any output pair resolves, per
quality, to the first-seen self-contained URL, else the first-seen
manifest URL, else the first-seen fallback URL. -/
lemma select_items_mem {formats : List FormatDescriptor} {q u : String}
    (h : PickItem.mk q u ∈ _select_items formats) :
    resolvePreferred formats q = some u := by
  unfold _select_items at h
  rw [(sortPicks_perm _).mem_iff] at h
  obtain ⟨p, hp, hpe⟩ := List.mem_map.mp h
  obtain ⟨hq1, hq2⟩ := PickItem.mk.injEq .. ▸ hpe
  obtain rfl : p = (q, u) := Prod.ext hq1 hq2
  obtain ⟨hres, hsome⟩ := mem_mergeQualities hp
  obtain ⟨hb, hm, hf⟩ := select_maps_alookup formats q
  unfold resolveMaps at hres
  unfold resolvePreferred
  rw [← hb, ← hm, ← hf]
  cases hcb : alookup q (formats.foldl selStep emptyMaps).best with
  | some v => rw [hcb] at hres; subst hres; rfl
  | none =>
    rw [hcb] at hres
    cases hcm : alookup q (formats.foldl selStep emptyMaps).m3u8 with
    | some v => rw [hcm] at hres; subst hres; rfl
    | none =>
      rw [hcm] at hres
      rw [hcb, hcm] at hsome
      cases hcf : alookup q (formats.foldl selStep emptyMaps).fb with
      | some v =>
        rw [hcf] at hres
        subst hres
        rfl
      | none =>
        rw [hcf] at hsome
        simp at hsome

/-- Provenance: every selected pair's URL and quality come from some
input descriptor with that usable URL classified at that quality. -/
lemma select_items_provenance {formats : List FormatDescriptor} {q u : String}
    (h : PickItem.mk q u ∈ _select_items formats) :
    ∃ f, f ∈ formats ∧ f.url = some u ∧ u ≠ "" ∧ qualityOf f = some q := by
  have hres := select_items_mem h
  unfold resolvePreferred at hres
  have pick : ∃ (p : FormatDescriptor → Bool), firstUrlWhere p formats = some u ∧
      ∀ f, p f = true → qualityOf f = some q := by
    cases hsc : firstUrlWhere (scAt q) formats with
    | some v =>
      rw [hsc] at hres
      obtain rfl : v = u := by simpa [firstSome] using hres
      exact ⟨scAt q, hsc, fun f hf => by
        have := (Bool.and_eq_true _ _).mp ((Bool.and_eq_true _ _).mp hf).1
        exact of_decide_eq_true this.2⟩
    | none =>
      rw [hsc] at hres
      cases hman : firstUrlWhere (manAt q) formats with
      | some v =>
        rw [hman] at hres
        obtain rfl : v = u := by simpa [firstSome] using hres
        exact ⟨manAt q, hman, fun f hf => by
          unfold manAt at hf
          have h1 := (Bool.and_eq_true _ _).mp hf
          have h2 := (Bool.and_eq_true _ _).mp h1.1
          have h3 := (Bool.and_eq_true _ _).mp h2.1
          exact of_decide_eq_true h3.2⟩
      | none =>
        rw [hman] at hres
        have hres' : firstUrlWhere (fbAt q) formats = some u := by
          simpa [firstSome] using hres
        exact ⟨fbAt q, hres', fun f hf => by
          unfold fbAt at hf
          have h1 := (Bool.and_eq_true _ _).mp hf
          have h2 := (Bool.and_eq_true _ _).mp h1.1
          have h3 := (Bool.and_eq_true _ _).mp h2.1
          exact of_decide_eq_true h3.2⟩
  obtain ⟨p, hfirst, hqual⟩ := pick
  obtain ⟨f, hf, hpf, huf⟩ := firstUrlWhere_mem hfirst
  obtain ⟨hurl, hne⟩ := usableUrl_some huf
  exact ⟨f, hf, hurl, hne, hqual f hpf⟩

/-! ### The classifier as a function of the effective dimensions -/

lemma effWidth_posFilter (res : Option String) (width : Option Int) :
    effWidth res width = posFilter (codeW res width) := by
  unfold effWidth codeW posFilter
  cases width with
  | none => rfl
  | some x => by_cases hx : 0 < x <;> simp [hx]

lemma effHeight_posFilter (res : Option String) (height : Option Int) :
    effHeight res height = posFilter (codeH res height) := by
  unfold effHeight codeH posFilter
  cases height with
  | none => rfl
  | some x => by_cases hx : 0 < x <;> simp [hx]

lemma quality_eq_eff (res : Option String) (width height : Option Int) :
    _quality_from_resolution res width height =
      match effWidth res width with
      | some wv => some (widthLadder wv)
      | none =>
        match effHeight res height with
        | some hv => some (heightLadder hv)
        | none => none := by
  rw [effWidth_posFilter, effHeight_posFilter]
  unfold _quality_from_resolution
  cases hw : codeW res width with
  | none =>
    cases hh : codeH res height with
    | none => simp [posFilter]
    | some hv => by_cases h2 : 0 < hv <;> simp [posFilter, h2]
  | some wv =>
    by_cases h : 0 < wv
    · simp [posFilter, h]
    · cases hh : codeH res height with
      | none => simp [posFilter, h]
      | some hv => by_cases h2 : 0 < hv <;> simp [posFilter, h, h2]

lemma widthLadder_eq_iff (w : Int) :
    (widthLadder w = "1080p" ↔ 1920 ≤ w) ∧
    (widthLadder w = "720p" ↔ 1280 ≤ w ∧ w < 1920) ∧
    (widthLadder w = "480p" ↔ 854 ≤ w ∧ w < 1280) ∧
    (widthLadder w = "360p" ↔ 640 ≤ w ∧ w < 854) ∧
    (widthLadder w = "240p" ↔ 426 ≤ w ∧ w < 640) ∧
    (widthLadder w = "144p" ↔ w < 426) := by
  unfold widthLadder
  split_ifs with h1 h2 h3 h4 h5 <;>
    refine ⟨?_, ?_, ?_, ?_, ?_, ?_⟩ <;> simp <;> omega

lemma heightLadder_eq_iff (h : Int) :
    (heightLadder h = "1080p" ↔ 1080 ≤ h) ∧
    (heightLadder h = "720p" ↔ 720 ≤ h ∧ h < 1080) ∧
    (heightLadder h = "480p" ↔ 480 ≤ h ∧ h < 720) ∧
    (heightLadder h = "360p" ↔ 360 ≤ h ∧ h < 480) ∧
    (heightLadder h = "240p" ↔ 240 ≤ h ∧ h < 360) ∧
    (heightLadder h = "144p" ↔ h < 240) := by
  unfold heightLadder
  split_ifs with h1 h2 h3 h4 h5 <;>
    refine ⟨?_, ?_, ?_, ?_, ?_, ?_⟩ <;> simp <;> omega

lemma widthLadder_mem (w : Int) : widthLadder w ∈ tierLabels := by
  unfold widthLadder tierLabels
  split_ifs <;> simp

lemma heightLadder_mem (h : Int) : heightLadder h ∈ tierLabels := by
  unfold heightLadder tierLabels
  split_ifs <;> simp

lemma quality_mem_tiers {res : Option String} {w h : Option Int} {q : String}
    (hq : _quality_from_resolution res w h = some q) : q ∈ tierLabels := by
  rw [quality_eq_eff] at hq
  cases hw : effWidth res w with
  | some wv =>
    rw [hw] at hq
    obtain rfl : widthLadder wv = q := by simpa using hq
    exact widthLadder_mem wv
  | none =>
    rw [hw] at hq
    cases hh : effHeight res h with
    | some hv =>
      rw [hh] at hq
      obtain rfl : heightLadder hv = q := by simpa using hq
      exact heightLadder_mem hv
    | none =>
      rw [hh] at hq
      simp at hq

/-! ### The output carries no duplicate quality label -/

lemma select_items_pairwise_ne (formats : List FormatDescriptor) :
    (_select_items formats).Pairwise fun a b => a.quality ≠ b.quality := by
  unfold _select_items
  refine ((sortPicks_perm _).pairwise_iff fun hxy he => hxy he.symm).mpr ?_
  unfold mergeQualities
  rw [List.pairwise_map, List.pairwise_map]
  exact nodup_dedupAux _ _

/-! ### The claim's reading of the sort key order -/

lemma keyLe_conds {a b : PickItem} (h : keyLe a b = true) :
    ((searchMag a.quality.data).isNone → (searchMag b.quality.data).isNone) ∧
    (∀ m m', searchMag a.quality.data = some m →
      searchMag b.quality.data = some m' → m' ≤ m) := by
  unfold keyLe _sort_key at h
  constructor
  · intro ha
    rw [Option.isNone_iff_eq_none] at ha ⊢
    rw [ha] at h
    cases hb : searchMag b.quality.data with
    | none => rfl
    | some m => rw [hb] at h; simp at h
  · intro m m' hm hm'
    rw [hm, hm'] at h
    simp at h
    omega

lemma select_items_sorted (formats : List FormatDescriptor) :
    (_select_items formats).Pairwise fun a b =>
      ((searchMag a.quality.data).isNone → (searchMag b.quality.data).isNone) ∧
      (∀ m m', searchMag a.quality.data = some m →
        searchMag b.quality.data = some m' → m' ≤ m) := by
  unfold _select_items
  exact (sortPicks_pairwise _).imp fun h => keyLe_conds h

/-! ### Handler-level lemmas -/

lemma extract_of_valid {p : Payload} {o : Except String (List FormatDescriptor)}
    {uf : Bool} (hv : validationError p = none) :
    extract p o uf = extractMain p o uf := by
  unfold extract
  rw [hv]

lemma validationError_some {p : Payload} {r : Response}
    (h : validationError p = some r) : ∃ msg, r = Response.err 400 msg := by
  unfold validationError at h
  by_cases h1 : pyStrip (p.app_name.getD "") = ""
  · rw [if_pos h1] at h
    simp at h
    exact ⟨_, h.symm⟩
  rw [if_neg h1] at h
  by_cases h2 : pyStrip (p.name.getD "") = ""
  · rw [if_pos h2] at h
    simp at h
    exact ⟨_, h.symm⟩
  rw [if_neg h2] at h
  by_cases h3 : pyStrip (p.url.getD "") = "" ∨
      (startsWithStr (pyStrip (p.url.getD "")) "http://" = false ∧
        startsWithStr (pyStrip (p.url.getD "")) "https://" = false)
  · rw [if_pos h3] at h
    simp at h
    exact ⟨_, h.symm⟩
  rw [if_neg h3] at h
  by_cases h4 : headersBad p.headers = true
  · rw [if_pos h4] at h
    simp at h
    exact ⟨_, h.symm⟩
  rw [if_neg h4] at h
  by_cases h5 : cookiesBad p.cookies = true
  · rw [if_pos h5] at h
    simp at h
    exact ⟨_, h.symm⟩
  rw [if_neg h5] at h
  simp at h

lemma validationError_of_bad {p : Payload}
    (h : pyStrip (p.app_name.getD "") = "" ∨ pyStrip (p.name.getD "") = "" ∨
      pyStrip (p.url.getD "") = "" ∨
      (startsWithStr (pyStrip (p.url.getD "")) "http://" = false ∧
        startsWithStr (pyStrip (p.url.getD "")) "https://" = false)) :
    ∃ msg, validationError p = some (.err 400 msg) := by
  by_cases ha : pyStrip (p.app_name.getD "") = ""
  · exact ⟨"app_name is required", by simp [validationError, ha]⟩
  by_cases hn : pyStrip (p.name.getD "") = ""
  · exact ⟨"name is required", by simp [validationError, ha, hn]⟩
  have hurl : pyStrip (p.url.getD "") = "" ∨
      (startsWithStr (pyStrip (p.url.getD "")) "http://" = false ∧
        startsWithStr (pyStrip (p.url.getD "")) "https://" = false) := by
    rcases h with h | h | h | h
    · exact absurd h ha
    · exact absurd h hn
    · exact Or.inl h
    · exact Or.inr h
  exact ⟨"url is required and must start with http/https",
    by simp [validationError, ha, hn, hurl]⟩

/-! ### Sanity examples (concrete evaluations of the embedding) -/

example : _quality_from_resolution none none (some 720) = some "720p" := by decide
example : _quality_from_resolution (some "1280x720") none none = some "720p" := by decide
example : _quality_from_resolution (some "640x480") (some 1920) none = some "1080p" := by decide
example : _quality_from_resolution none none none = none := by decide
example : _sort_key "1080p" = (0, -1080) := by decide
example : _sort_key "direct" = (1, 0) := by decide
example : _is_direct_media "http://a/b.mp4?x=1" = true := by decide
example : _is_direct_media "http://a/b.html" = false := by decide
example :
    _select_items [{ url := some "A", vcodec := some "avc1", acodec := some "mp4a", height := some 720 },
      { url := some "B", vcodec := some "avc1", acodec := some "none", height := some 720 }] =
      [PickItem.mk "720p" "A"] := by decide

/-! ### Additional handler lemmas used by the claims -/

lemma extractMain_ok_response (p : Payload) (formats : List FormatDescriptor) (uf : Bool) :
    (extractMain p (.ok formats) uf).response =
      (let url := pyStrip (p.url.getD "")
       let nm := pyStrip (p.name.getD "")
       let items := _select_items formats
       let items2 :=
         if items.isEmpty && _is_direct_media url then [PickItem.mk "direct" url]
         else items
       if items2.isEmpty then Response.err 422 "failed to extract formats"
       else Response.ok (items2.map fun it => ⟨it.quality, it.url, nm⟩)) := rfl

lemma extractMain_error_response (p : Payload) (e : String) (uf : Bool) :
    (extractMain p (.error e) uf).response = .err 500 e := rfl

lemma select_items_quality_tier {formats : List FormatDescriptor} {it : PickItem}
    (h : it ∈ _select_items formats) : it.quality ∈ tierLabels := by
  obtain ⟨f, _, _, _, hq⟩ :=
    select_items_provenance (show PickItem.mk it.quality it.url ∈ _select_items formats from h)
  exact quality_mem_tiers hq

/-! ### The claims -/

/-- C1: for every format list and quality label `q` in the final
selection, the URL paired with `q` is the first-seen URL among
self-contained descriptors at `q`; if none, the first-seen manifest URL at
`q`; otherwise the first-seen fallback URL at `q` (first-seen-wins within
each kind, per-key merge preferring self-contained > manifest > fallback).
In particular, a 720p self-contained descriptor with URL "A" followed by a
720p audio-less descriptor with URL "B" selects "A", not "B". -/
theorem C1_merge_first_seen_preference :
    (∀ (formats : List FormatDescriptor) (q u : String),
      PickItem.mk q u ∈ _select_items formats → resolvePreferred formats q = some u) ∧
    _select_items [c1DescA, c1DescB] = [PickItem.mk "720p" "A"] :=
  ⟨fun _ _ _ h => select_items_mem h, by decide⟩

/-- Witness for C1 at the claim's own concrete example. -/
theorem C1_merge_witness : resolvePreferred [c1DescA, c1DescB] "720p" = some "A" :=
  C1_merge_first_seen_preference.1 [c1DescA, c1DescB] "720p" "A" (by decide)

/-- C2 counterexample: an audio-only descriptor (`vcodec == "none"`) that
carries a height is selected through the fallback dict — the code has no
`vcodec == "none"` exclusion, contradicting the claim that such a
descriptor never contributes its URL. -/
theorem C2_counterexample :
    descAudioOnly.vcodec = some "none" ∧
    _select_items [descAudioOnly] = [PickItem.mk "720p" "X"] := by decide

/-- C2 amended: a descriptor with no (or empty) `url` is never selected —
every selected pair's URL is the usable URL of some input descriptor
classified at that quality — and a descriptor with `vcodec == "none"` is
never classified self-contained (but may still contribute through the
manifest or fallback channel, as the counterexample shows). -/
theorem C2_amended_url_gate :
    (∀ (formats : List FormatDescriptor) (q u : String),
      PickItem.mk q u ∈ _select_items formats →
      ∃ f, f ∈ formats ∧ f.url = some u ∧ u ≠ "" ∧ qualityOf f = some q) ∧
    (∀ f : FormatDescriptor, f.vcodec = some "none" → _has_av_in_one f = false) := by
  refine ⟨fun _ _ _ h => select_items_provenance h, fun f hf => ?_⟩
  unfold _has_av_in_one truthyStr
  rw [hf]
  simp

/-- Witness for C2's amended theorem. -/
theorem C2_amended_witness :
    ∃ f, f ∈ [descAudioOnly] ∧ f.url = some "X" ∧ "X" ≠ "" ∧
      qualityOf f = some "720p" :=
  C2_amended_url_gate.1 [descAudioOnly] "720p" "X" (by decide)

/-- C3 counterexample: a descriptor with extension `mpd` and protocol
`dash` satisfies the claim's manifest condition, yet `_is_m3u8_format`
rejects it and the engine files it under the video-only fallback dict, not
the manifest dict — the code never checks `mpd`/`dash`. -/
theorem C3_counterexample :
    descMpd.ext = some "mpd" ∧
    containsStr (lowerStr (descMpd.protocol.getD "")) "dash" = true ∧
    _has_av_in_one descMpd = false ∧
    (usableUrl descMpd).isSome = true ∧
    qualityOf descMpd = some "720p" ∧
    _is_m3u8_format descMpd = false ∧
    (selStep emptyMaps descMpd).m3u8 = [] ∧
    (selStep emptyMaps descMpd).fb = [("720p", "http://host/video")] := by decide

/-- C3 amended: a video-bearing, non-self-contained usable descriptor is
classified as a manifest stream iff its extension is `m3u8`, or its
protocol contains `m3u8`, or its URL contains `.m3u8` — `mpd` extensions
and `dash` protocols are NOT recognized and fall through to the video-only
fallback kind. -/
theorem C3_amended_manifest_condition (f : FormatDescriptor) (u q : String)
    (hu : usableUrl f = some u) (hq : qualityOf f = some q)
    (hav : _has_av_in_one f = false) :
    _is_m3u8_format f = manifestCond f ∧
    (selStep emptyMaps f).m3u8 = (if manifestCond f then [(q, u)] else []) ∧
    (selStep emptyMaps f).fb = (if manifestCond f then [] else [(q, u)]) ∧
    (selStep emptyMaps f).best = [] := by
  have hcond : _is_m3u8_format f = manifestCond f := by
    unfold _is_m3u8_format manifestCond
    cases hb1 : (lowerStr (f.ext.getD "") == "m3u8") <;>
      cases hb2 : containsStr (lowerStr (f.protocol.getD "")) "m3u8" <;>
      cases hb3 : containsStr (lowerStr (f.url.getD "")) ".m3u8" <;>
      simp [hb1, hb2, hb3]
  refine ⟨hcond, ?_, ?_, ?_⟩ <;>
    cases hm : manifestCond f <;>
    simp [selStep, hu, hq, hav, hcond, hm, insertIfAbsent, alookup, emptyMaps]

/-- Witness for C3's amended theorem at an `m3u8` descriptor. -/
theorem C3_amended_witness :
    (selStep emptyMaps descM3u8).m3u8 =
      (if manifestCond descM3u8 then [("480p", "http://h/v")] else []) :=
  (C3_amended_manifest_condition descM3u8 "http://h/v" "480p"
    (by decide) (by decide) (by decide)).2.1

/-- C4: in resolutionTier mode the label comes from the effective positive
width (explicit positive `width`/`height` integers overriding the parsed
`"WxH"` string) via the 1920/1280/854/640/426 thresholds; only when no
positive width is available does the effective positive height decide via
the 1080/720/480/360/240 thresholds; with neither, the descriptor gets no
label (and is excluded). -/
theorem C4_resolution_tier_thresholds (res : Option String) (width height : Option Int) :
    (∀ w, effWidth res width = some w →
      ((_quality_from_resolution res width height = some "1080p") ↔ 1920 ≤ w) ∧
      ((_quality_from_resolution res width height = some "720p") ↔ 1280 ≤ w ∧ w < 1920) ∧
      ((_quality_from_resolution res width height = some "480p") ↔ 854 ≤ w ∧ w < 1280) ∧
      ((_quality_from_resolution res width height = some "360p") ↔ 640 ≤ w ∧ w < 854) ∧
      ((_quality_from_resolution res width height = some "240p") ↔ 426 ≤ w ∧ w < 640) ∧
      ((_quality_from_resolution res width height = some "144p") ↔ w < 426)) ∧
    (effWidth res width = none → ∀ hv, effHeight res height = some hv →
      ((_quality_from_resolution res width height = some "1080p") ↔ 1080 ≤ hv) ∧
      ((_quality_from_resolution res width height = some "720p") ↔ 720 ≤ hv ∧ hv < 1080) ∧
      ((_quality_from_resolution res width height = some "480p") ↔ 480 ≤ hv ∧ hv < 720) ∧
      ((_quality_from_resolution res width height = some "360p") ↔ 360 ≤ hv ∧ hv < 480) ∧
      ((_quality_from_resolution res width height = some "240p") ↔ 240 ≤ hv ∧ hv < 360) ∧
      ((_quality_from_resolution res width height = some "144p") ↔ hv < 240)) ∧
    ((_quality_from_resolution res width height = none) ↔
      (effWidth res width = none ∧ effHeight res height = none)) := by
  refine ⟨?_, ?_, ?_⟩
  · intro w hw
    rw [quality_eq_eff, hw]
    simpa using widthLadder_eq_iff w
  · intro hw hv hh
    rw [quality_eq_eff, hw, hh]
    simpa using heightLadder_eq_iff hv
  · rw [quality_eq_eff]
    cases hw : effWidth res width with
    | some wv => simp
    | none =>
      cases hh : effHeight res height with
      | some hv => simp
      | none => simp

/-- Witness for C4: a 640-wide resolution string yields `"360p"`. -/
theorem C4_threshold_witness :
    _quality_from_resolution (some "640x360") none none = some "360p" :=
  (((C4_resolution_tier_thresholds (some "640x360") none none).1 640
    (by decide)).2.2.2.1).mpr ⟨by decide, by decide⟩

/-- C5: the final selection is sorted so that every label embedding a 3-4
digit magnitude followed by `p` precedes every label without one; among
magnitude labels larger magnitude comes first; the sort permutes its
input; among no-magnitude labels the pre-sort relative order is preserved
(stability); and the heights 1080/720/480 example yields exactly
["1080p", "720p", "480p"]. -/
theorem C5_quality_ordering :
    (∀ formats : List FormatDescriptor, (_select_items formats).Pairwise fun a b =>
      ((searchMag a.quality.data).isNone → (searchMag b.quality.data).isNone) ∧
      (∀ m m', searchMag a.quality.data = some m →
        searchMag b.quality.data = some m' → m' ≤ m)) ∧
    (∀ l : List PickItem, List.Perm (sortPicks l) l) ∧
    (∀ l : List PickItem, (sortPicks l).filter noMagP = l.filter noMagP) ∧
    _select_items [c5Desc1080, c5Desc720, c5Desc480] =
      [PickItem.mk "1080p" "u1080", PickItem.mk "720p" "u720",
        PickItem.mk "480p" "u480"] :=
  ⟨select_items_sorted, sortPicks_perm, sortPicks_filter, by decide⟩

/-- Witness for C5: the sort leaves a singleton unchanged (permutation). -/
theorem C5_ordering_witness :
    List.Perm (sortPicks [PickItem.mk "direct" "d"]) [PickItem.mk "direct" "d"] :=
  C5_quality_ordering.2.1 [PickItem.mk "direct" "d"]

/-- C6: when validation passes and the selection engine yields an empty
result, a URL whose pre-`?` part ends in `.mp4`/`.m3u8`/`.mpd` (the
`_is_direct_media` test) produces exactly the single item
`{quality: "direct", url: <request URL>}`; otherwise no direct item is
synthesized and the handler reports the 422 failure. -/
theorem C6_direct_media_fallback (p : Payload) (formats : List FormatDescriptor)
    (uf : Bool) (hv : validationError p = none)
    (hsel : _select_items formats = []) :
    (_is_direct_media (pyStrip (p.url.getD "")) = true →
      (extract p (.ok formats) uf).response =
        .ok [⟨"direct", pyStrip (p.url.getD ""), pyStrip (p.name.getD "")⟩]) ∧
    (_is_direct_media (pyStrip (p.url.getD "")) = false →
      (extract p (.ok formats) uf).response = .err 422 "failed to extract formats") := by
  constructor <;> intro hdir <;>
    rw [extract_of_valid hv, extractMain_ok_response] <;>
    simp [hsel, hdir]

/-- Witness for C6 at a concrete `.mp4` request with empty extraction. -/
theorem C6_direct_witness :
    (extract pGood (.ok []) false).response =
      .ok [⟨"direct", pyStrip (pGood.url.getD ""), pyStrip (pGood.name.getD "")⟩] :=
  (C6_direct_media_fallback pGood [] false (by decide) rfl).1 (by decide)

/-- C7: no two items of any selection result share a quality label. -/
theorem C7_unique_quality_labels (formats : List FormatDescriptor) :
    (_select_items formats).Pairwise fun a b => a.quality ≠ b.quality :=
  select_items_pairwise_ne formats

/-- Witness for C7 at the duplicate-quality example list. -/
theorem C7_unique_witness :
    (_select_items [c1DescA, c1DescB]).Pairwise fun a b => a.quality ≠ b.quality :=
  C7_unique_quality_labels [c1DescA, c1DescB]

/-- C8 counterexample: a validated `.facebook.com` request supplying the
NON-EMPTY cookies string `"   "` (whitespace only) creates no temporary
credential file at all — the trace holds a single collaborator call with
no cookie-file path, because the code's creation condition
`cookies and cookies.strip()` (src/main.py:188) also requires the cookies
to be non-blank.  This refutes the claim as stated at an input it
covers. -/
theorem C8_counterexample :
    cookiesStr pFacebookBlankCookies.cookies = some "   " ∧
    "   " ≠ "" ∧
    validationError pFacebookBlankCookies = none ∧
    containsStr (lowerStr (pyStrip (pFacebookBlankCookies.url.getD "")))
      ".facebook.com" = true ∧
    (extract pFacebookBlankCookies (.error "boom") false).events =
      [Ev.collab false] ∧
    Ev.mkCookieFile ∉ (extract pFacebookBlankCookies (.error "boom") false).events := by
  decide

/-- C8 amended: a validated request to a `.facebook.com` URL whose cookies
are non-BLANK (non-empty after stripping whitespace) creates the temporary
credential file, passes it to the collaborator, and attempts the unlink on
every exit path (success, empty selection, or collaborator exception); a
failing unlink never alters the response, and when the unlink succeeds the
file is gone.  (Whitespace-only cookies, though non-empty, create no file
— see the counterexample.) -/
theorem C8_cookie_file_lifecycle (p : Payload)
    (outcome : Except String (List FormatDescriptor)) (uf : Bool) (c : String)
    (hv : validationError p = none)
    (hfb : containsStr (lowerStr (pyStrip (p.url.getD ""))) ".facebook.com" = true)
    (hc : cookiesStr p.cookies = some c) (hcs : pyStrip c ≠ "") :
    (extract p outcome uf).events = [Ev.mkCookieFile, Ev.collab true, Ev.unlink] ∧
    (extract p outcome uf).response = (extract p outcome false).response ∧
    (extract p outcome uf).cookieFileRemains = uf := by
  have hcne : c ≠ "" := by
    intro he
    apply hcs
    rw [he]
    rfl
  rw [extract_of_valid hv, extract_of_valid hv]
  refine ⟨?_, rfl, ?_⟩
  · show (extractMain p outcome uf).events = _
    unfold extractMain
    simp [hfb, hc, hcne, hcs]
  · show (extractMain p outcome uf).cookieFileRemains = uf
    unfold extractMain
    simp [hfb, hc, hcne, hcs]

/-- Witness for C8: the facebook request's trace even when the
collaborator raises and the unlink fails. -/
theorem C8_cookie_witness :
    (extract pFacebook (.error "boom") true).events =
      [Ev.mkCookieFile, Ev.collab true, Ev.unlink] :=
  (C8_cookie_file_lifecycle pFacebook (.error "boom") true "cookiedata"
    (by decide) (by decide) rfl (by decide)).1

/-- C9: a request with empty (after trimming) `app_name`, `name`, or
`url`, or a `url` that does not start with `http://`/`https://`, yields an
HTTP 400 `{ok: false, error: msg}` response and no event at all — in
particular the extraction collaborator is never invoked. -/
theorem C9_validation_rejects (p : Payload)
    (outcome : Except String (List FormatDescriptor)) (uf : Bool)
    (h : pyStrip (p.app_name.getD "") = "" ∨ pyStrip (p.name.getD "") = "" ∨
      pyStrip (p.url.getD "") = "" ∨
      (startsWithStr (pyStrip (p.url.getD "")) "http://" = false ∧
        startsWithStr (pyStrip (p.url.getD "")) "https://" = false)) :
    (∃ msg, (extract p outcome uf).response = .err 400 msg) ∧
    (extract p outcome uf).events = [] ∧
    ∀ b, Ev.collab b ∉ (extract p outcome uf).events := by
  obtain ⟨msg, hmsg⟩ := validationError_of_bad h
  unfold extract
  rw [hmsg]
  exact ⟨⟨msg, rfl⟩, rfl, by simp⟩

/-- Witness for C9 at the claim's `ftp://x` example. -/
theorem C9_validation_witness :
    ∃ msg, (extract pBadUrl (.ok []) false).response = .err 400 msg :=
  (C9_validation_rejects pBadUrl (.ok []) false
    (Or.inr (Or.inr (Or.inr ⟨by decide, by decide⟩)))).1

/-- C10: every label the classifier emits is one of the six fixed tiers,
hence so is every label in a selection result; `"direct"` is never
produced by selection, and an output item labelled `"direct"` can only
come from the direct-media fallback on an empty selection. -/
theorem C10_label_range :
    (∀ (res : Option String) (w h : Option Int) (q : String),
      _quality_from_resolution res w h = some q → q ∈ tierLabels) ∧
    (∀ (formats : List FormatDescriptor) (it : PickItem),
      it ∈ _select_items formats → it.quality ∈ tierLabels) ∧
    (∀ (formats : List FormatDescriptor) (u : String),
      PickItem.mk "direct" u ∉ _select_items formats) ∧
    (∀ (p : Payload) (o : Except String (List FormatDescriptor)) (uf : Bool)
      (out : List OutItem) (it : OutItem),
      (extract p o uf).response = .ok out → it ∈ out → it.quality = "direct" →
      ∃ formats, o = .ok formats ∧ _select_items formats = [] ∧
        _is_direct_media (pyStrip (p.url.getD "")) = true ∧
        it.url = pyStrip (p.url.getD "")) := by
  refine ⟨fun _ _ _ _ hq => quality_mem_tiers hq,
    fun _ _ h => select_items_quality_tier h, ?_, ?_⟩
  · intro formats u hmem
    have := select_items_quality_tier hmem
    simp [tierLabels] at this
  · intro p o uf out it hresp hmem hqd
    unfold extract at hresp
    cases hval : validationError p with
    | some r =>
      obtain ⟨msg, rfl⟩ := validationError_some hval
      rw [hval] at hresp
      simp at hresp
    | none =>
      rw [hval] at hresp
      cases o with
      | error e =>
        rw [show (match (none : Option Response) with
            | some r => HandlerRun.mk r [] false
            | none => extractMain p (.error e) uf) = extractMain p (.error e) uf
          from rfl, extractMain_error_response] at hresp
        simp at hresp
      | ok formats =>
        have hresp' : (extractMain p (.ok formats) uf).response = .ok out := hresp
        rw [extractMain_ok_response] at hresp'
        simp only at hresp'
        by_cases hd : ((_select_items formats).isEmpty
            && _is_direct_media (pyStrip (p.url.getD ""))) = true
        · rw [if_pos hd] at hresp'
          simp only [List.isEmpty_cons, if_false, Bool.false_eq_true, ite_false,
            List.map_cons, List.map_nil] at hresp'
          obtain ⟨hemp, hdm⟩ := Bool.and_eq_true_iff.mp hd
          have hout : [(⟨"direct", pyStrip (p.url.getD ""),
              pyStrip (p.name.getD "")⟩ : OutItem)] = out := by
            simpa using hresp'
          rw [← hout] at hmem
          have hit : it = ⟨"direct", pyStrip (p.url.getD ""),
              pyStrip (p.name.getD "")⟩ := by simpa using hmem
          exact ⟨formats, rfl, List.isEmpty_iff.mp hemp, hdm, by rw [hit]⟩
        · rw [if_neg hd] at hresp'
          by_cases hemp : (_select_items formats).isEmpty = true
          · rw [if_pos hemp] at hresp'
            simp at hresp'
          · rw [if_neg hemp] at hresp'
            have hout : (_select_items formats).map
                (fun pk => (⟨pk.quality, pk.url, pyStrip (p.name.getD "")⟩ : OutItem))
                = out := by simpa using hresp'
            rw [← hout] at hmem
            obtain ⟨pk, hpk, hpe⟩ := List.mem_map.mp hmem
            have hq : pk.quality = "direct" := by
              have := congrArg OutItem.quality hpe
              simpa [hqd] using this
            have := select_items_quality_tier hpk
            rw [hq] at this
            simp [tierLabels] at this

/-- Witness for C10: a selected label is one of the six tiers. -/
theorem C10_label_witness :
    (PickItem.mk "720p" "A").quality ∈ tierLabels :=
  C10_label_range.2.1 [c1DescA, c1DescB] (PickItem.mk "720p" "A") (by decide)
